import Mathlib

/-!
Shallow embedding of the hand-motion-capture pipeline:

* `src/dataset_gen/pi/src/camera_handler.cpp` — backpressure check,
  request ring cursor, completion callback;
* `src/dataset_gen/pi/src/main.cpp` — signal handlers and `stream_pkt`;
* `src/stream_server/src/stream_mgr.c` — per-connection worker loop,
  modelled as a state machine stepped by external socket/decoder events.

Pure functions model each routine directly; routines with externally
supplied results (vendor submit, `write`, decoder calls) take those
results as explicit inputs.  Side effects that the verified properties
talk about (submissions, enqueues, `sem_post`, `close`, request reuse)
are recorded as event traces so ordering and absence of effects are
provable.
-/

namespace HandMotion

/-! ### Camera handler (`camera_handler.cpp`) -/

/-- Errors thrown by `camera_handler_t::queue_request`:
`bufferNotReady` is the "Buffer is not ready for requeuing" throw,
`queueFailed` the "Failed to queue request" throw. -/
inductive CamErr
  | bufferNotReady
  | queueFailed
deriving DecidableEq

/-- Observable effect of `queue_request`: a call to
`camera_->queueRequest(requests_[idx].get())`. -/
inductive CamEv
  | submit (idx : Nat)
deriving DecidableEq

/-- State of the camera handler relevant to `queue_request`:
the value `sem_getvalue` reads from `queue_counter` (a semaphore count,
hence a `Nat`), the ring cursor `next_req_idx_`, the ring size
`requests_.size()`, and the configured `dma_frame_buffers_`
(an `int` in the source, hence `Int`). -/
structure CamState where
  semCount : Nat
  nextReqIdx : Nat
  ringSize : Nat
  dmaFrameBuffers : Int
deriving DecidableEq

/-- Embedding of `camera_handler_t::queue_request` (camera_handler.cpp:314).
`vendorOk` is the outcome of the vendor call `camera_->queueRequest`
(`true` iff it returned `>= 0`).  Returns the resulting handler state,
the thrown error if any, and the trace of submissions performed. -/
def queue_request (s : CamState) (vendorOk : Bool) :
    CamState × Option CamErr × List CamEv :=
  if (s.semCount : Int) > s.dmaFrameBuffers - 2 then
    (s, some .bufferNotReady, [])
  else if vendorOk then
    ({ s with nextReqIdx := (s.nextReqIdx + 1) % s.ringSize },
     none, [.submit s.nextReqIdx])
  else
    (s, some .queueFailed, [.submit s.nextReqIdx])

/-- Status of a completed request as checked by `request_complete`;
the source only distinguishes `RequestCancelled` from everything else. -/
inductive RStat
  | cancelled
  | complete
deriving DecidableEq

/-- Observable effects of `camera_handler_t::request_complete`, in the
order the source performs them: the `mmap_buffers_[cookie]` lookup, the
`frame_queue.enqueue(data)`, the `sem_post(&queue_counter)`, and the
`request->reuse(ReuseBuffers)`. -/
inductive CbEv
  | lookup (cookie : Nat)
  | enq (ptr : Nat)
  | semPost
  | reuse
deriving DecidableEq

/-- State touched by the completion callback: the lock-free frame queue
contents, the `queue_counter` value, and the `mmap_buffers_` table
(buffer pointers modelled as `Nat` ids, indexed by cookie). -/
structure CbState where
  frameQueue : List Nat
  semCount : Nat
  mmapBuffers : List Nat
deriving DecidableEq

/-- Embedding of `camera_handler_t::request_complete`
(camera_handler.cpp:355).  Cookies are assigned `0, 1, …` at init so the
index is in range; `getD` with default `0` mirrors the vector access. -/
def request_complete (s : CbState) (stat : RStat) (cookie : Nat) :
    CbState × List CbEv :=
  if stat = .cancelled then (s, [])
  else
    let data := s.mmapBuffers.getD cookie 0
    ({ s with frameQueue := s.frameQueue ++ [data], semCount := s.semCount + 1 },
     [.lookup cookie, .enq data, .semPost, .reuse])

/-- Modulus of C `unsigned int` arithmetic on the target. -/
def UINT_MOD : Nat := 2 ^ 32

/-- Embedding of `camera_handler_t::init_frame_config`
(camera_handler.cpp:52): `y = W*H`, `u = y/4`, `v = u`,
`frame_bytes_ = y + u + v`, in `unsigned int` arithmetic. -/
def init_frame_config (width height : Nat) : Nat :=
  let y_plane_bytes := width * height % UINT_MOD
  let u_plane_bytes := y_plane_bytes / 4
  let v_plane_bytes := u_plane_bytes
  (y_plane_bytes + u_plane_bytes + v_plane_bytes) % UINT_MOD

/-- Modelled from the spec: the YUV420 frame size the spec promises,
`frame_bytes = W*H*3/2` (spec §3 and glossary), for comparison with
`init_frame_config`. -/
def yuv420_frame_bytes (width height : Nat) : Nat :=
  width * height * 3 / 2

/-! ### Camera-node signal handlers (`main.cpp`) -/

/-- Linux signal number `SIGINT`. -/
def SIGINT : Nat := 2

/-- Linux signal number `SIGUSR1` (GPIO capture trigger). -/
def SIGUSR1 : Nat := 10

/-- Linux signal number `SIGUSR2` (socket watchdog timer). -/
def SIGUSR2 : Nat := 12

/-- Linux signal number `SIGTERM`. -/
def SIGTERM : Nat := 15

/-- Globals of `main.cpp` touched by `capture_signal_handler`:
the `running` flag, the socket fd, and whether `sem_destroy` has been
called on `queue_counter`. -/
structure MainState where
  running : Bool
  sockfd : Int
  semDestroyed : Bool
deriving DecidableEq

/-- Observable effects of the `main.cpp` signal handlers, in source
order: the `cam->queue_request()` call, the `running = 0` store, a
`close(fd)`, the `sem_destroy(&queue_counter)`, and — for comparison
with the spec — a `sem_post(&queue_counter)` (the source never performs
one inside a handler). -/
inductive SigEv
  | queueReq
  | clearRunning
  | closeFd (fd : Int)
  | semDestroy
  | semPost
deriving DecidableEq

/-- Embedding of `capture_signal_handler` (main.cpp:104): on `SIGUSR1`
while running it queues a capture request; on `SIGINT`/`SIGTERM` it
clears `running`, closes the socket if open, and destroys the
`queue_counter` semaphore. -/
def capture_signal_handler (signo : Nat) (s : MainState) :
    MainState × List SigEv :=
  if signo = SIGUSR1 ∧ s.running then
    (s, [.queueReq])
  else if signo = SIGINT ∨ signo = SIGTERM then
    if s.sockfd ≥ 0 then
      ({ running := false, sockfd := -1, semDestroyed := true },
       [.clearRunning, .closeFd s.sockfd, .semDestroy])
    else
      ({ s with running := false, semDestroyed := true },
       [.clearRunning, .semDestroy])
  else
    (s, [])

/-- Embedding of `socket_disconnect_handler` (main.cpp:94): on `SIGUSR2`
with an open socket it closes the fd and sets `sockfd = -1`; otherwise
it does nothing.  Returns the new `sockfd` and the number of `close`
calls performed. -/
def socket_disconnect_handler (signo : Nat) (sockfd : Int) : Int × Nat :=
  if signo = SIGUSR2 ∧ sockfd ≥ 0 then (-1, 1) else (sockfd, 0)

/-! ### Packet streaming (`main.cpp`, `stream_pkt`) -/

/-- Result of one `write(2)` call as seen by `stream_pkt`: `ok n` is a
return of `n ≥ 0` bytes, `eintr` a failure with `errno == EINTR`, `err`
a failure with any other errno. -/
inductive WRes
  | ok (n : Nat)
  | eintr
  | err
deriving DecidableEq

/-- Arguments of one `write` call issued by `stream_pkt`: the source
passes `data + total_bytes_written` and `size - total_bytes_written`, so
we record the offset into `data` and the requested length. -/
structure PktCall where
  off : Nat
  len : Nat
deriving DecidableEq

/-- Write loop of `stream_pkt` (main.cpp:221), recursing over the list
of `write` outcomes supplied by the OS.  A successful `write` never
returns more than the requested byte count, hence the `min` cap on the
oracle's value.  Returns `none` if the oracle is exhausted before the
loop exits, otherwise the return value of `stream_pkt`, the total bytes
written, and the trace of `write` calls issued. -/
def stream_pktLoop (size : Nat) : Nat → List WRes → Option (Int × Nat × List PktCall)
  | written, [] =>
    if written < size then none else some (0, written, [])
  | written, .ok n :: rest =>
    if written < size then
      (stream_pktLoop size (written + min n (size - written)) rest).map
        fun r => (r.1, r.2.1, ⟨written, size - written⟩ :: r.2.2)
    else some (0, written, [])
  | written, .eintr :: rest =>
    if written < size then
      (stream_pktLoop size written rest).map
        fun r => (r.1, r.2.1, ⟨written, size - written⟩ :: r.2.2)
    else some (0, written, [])
  | written, .err :: _ =>
    if written < size then some (-1, written, [⟨written, size - written⟩])
    else some (0, written, [])

/-- Embedding of `stream_pkt` (main.cpp:219).  The `conn.sockfd < 0`
test inside the source's loop can only succeed on its first iteration:
`init_network` installs a non-negative fd and nothing in `stream_pkt`
makes it negative again, so the reconnect is resolved once before the
write loop.  `reconnRet` is the return value of `init_network` (`0` on
success, a negative errno on failure). -/
def stream_pkt (sockfd : Int) (reconnRet : Int) (size : Nat)
    (oracle : List WRes) : Option (Int × Nat × List PktCall) :=
  if 0 < size then
    if sockfd < 0 then
      if reconnRet < 0 then some (reconnRet, 0, [])
      else stream_pktLoop size 0 oracle
    else stream_pktLoop size 0 oracle
  else some (0, 0, [])

/-- Contiguity of a trace of `write` calls: starting from `off` bytes
already written, each call begins at exactly the first unwritten byte
and requests exactly the remaining `size - off` bytes; the following
calls continue from `off + n` for the `n` bytes that call wrote. -/
inductive Contig (size : Nat) : Nat → List PktCall → Prop
  | nil (off : Nat) : Contig size off []
  | cons (off n : Nat) (rest : List PktCall) :
      Contig size (off + n) rest →
      Contig size off (⟨off, size - off⟩ :: rest)

/-! ### Server per-connection worker (`stream_mgr.c`)

The worker loop of `stream_mgr` (stream_mgr.c:69) is embedded as a state
machine stepped by external events: the outcome of each `recv_from_stream`,
`decode_packet` and `recv_frame` call.  `incoming_stream` is folded into
the phase (`recvFr incoming`); `new_frame` is initialised `true` and never
written, so the `recv_frame` section always runs.  The decoder (`viddec.c`
is not under `src/`) is modelled from the spec: `receive_frame` emits a
frame only when the decoder still holds a fed-but-unemitted packet, and
returns `ENODATA` only after `flush_decoder` once every fed packet has
been emitted (spec §2 "possibly multiple or zero outputs per input",
§3 `|timestamps_enqueued − frames_emitted| ≤ decoder_internal_latency`,
§4.6 "repeatedly call `receive_frame` … until `EAGAIN` … or `ENODATA`").
-/

/-- Control location inside the `stream_mgr` worker loop: about to read
the 8-byte timestamp, the 4-byte frame size, the payload of a given
size, about to call `decode_packet`, about to call `recv_frame` (with
the current value of `incoming_stream`), or out of the loop
(`done true` via the `ENODATA` break, `done false` via any error
break). -/
inductive Phase
  | readTs
  | readSz
  | readPl (frameSize : Nat)
  | decodePkt (frameSize : Nat)
  | recvFr (incoming : Bool)
  | done (ok : Bool)
deriving DecidableEq

/-- External events driving one transition of the worker: short or full
reads of the timestamp / size / payload, the `EOSTREAM` sentinel in the
timestamp slot, `decode_packet` outcome, and the four `recv_frame`
outcomes (`EAGAIN`, a decoded frame, `ENODATA`, other error). -/
inductive SrvEv
  | tsShort
  | tsEos
  | tsOk (t : Nat)
  | szShort
  | szOk (n : Nat)
  | plShort
  | plOk
  | decOk
  | decFail
  | frAgain
  | frFrame
  | frNodata
  | frErr
deriving DecidableEq

/-- State of the worker: control phase, the timestamp queue contents,
and instrumentation counters — timestamps enqueued/dequeued, fully
received non-sentinel timestamps (`tsRecvd`), fully received packets
(timestamp, size and payload all received: `fullPkts`), packets fed to
the decoder (`fed`), frames the decoder emitted (`emitted`), and whether
`flush_decoder` has been called. -/
structure SrvState where
  phase : Phase
  tsq : List Nat
  enqueued : Nat
  dequeued : Nat
  tsRecvd : Nat
  fullPkts : Nat
  fed : Nat
  emitted : Nat
  flushed : Bool
deriving DecidableEq

/-- Initial worker state: at the top of the loop with
`incoming_stream = true`, empty timestamp queue, nothing counted. -/
def srvInit : SrvState :=
  { phase := .readTs, tsq := [], enqueued := 0, dequeued := 0,
    tsRecvd := 0, fullPkts := 0, fed := 0, emitted := 0, flushed := false }

/-- One transition of the `stream_mgr` worker (stream_mgr.c:69-199),
parameterised by `cap = ENCODED_FRAME_BUF_SIZE`.  `none` means the event
cannot occur in that phase (including the spec-modelled decoder guards:
a frame only when `emitted < fed`, `ENODATA` only when flushed and
drained).  Error paths (`break` in the source) move to `done false`;
the `ENODATA` break moves to `done true`.  On `tsEos` the source sets
`incoming_stream = false`, calls `flush_decoder` and `continue`s; on a
frame it dequeues one timestamp (ignoring failure, as the source
does). -/
def srvStep (cap : Nat) (s : SrvState) (e : SrvEv) : Option SrvState :=
  match s.phase, e with
  | .readTs, .tsShort => some { s with phase := .done false }
  | .readTs, .tsEos => some { s with phase := .recvFr false, flushed := true }
  | .readTs, .tsOk t =>
      some { s with phase := .readSz, tsq := s.tsq ++ [t],
                    enqueued := s.enqueued + 1, tsRecvd := s.tsRecvd + 1 }
  | .readSz, .szShort => some { s with phase := .done false }
  | .readSz, .szOk n =>
      some (if n > cap then { s with phase := .done false }
            else { s with phase := .readPl n })
  | .readPl _, .plShort => some { s with phase := .done false }
  | .readPl n, .plOk =>
      some { s with phase := .decodePkt n, fullPkts := s.fullPkts + 1 }
  | .decodePkt _, .decOk => some { s with phase := .recvFr true, fed := s.fed + 1 }
  | .decodePkt _, .decFail => some { s with phase := .done false }
  | .recvFr b, .frAgain =>
      some { s with phase := if b then .readTs else .recvFr false }
  | .recvFr b, .frFrame =>
      if s.emitted < s.fed then
        some { s with phase := if b then .readTs else .recvFr false,
                      emitted := s.emitted + 1, dequeued := s.dequeued + 1,
                      tsq := s.tsq.tail }
      else none
  | .recvFr _, .frNodata =>
      if s.flushed = true ∧ s.emitted = s.fed then
        some { s with phase := .done true }
      else none
  | .recvFr _, .frErr => some { s with phase := .done false }
  | _, _ => none

/-- Reachability of a worker state from `srvInit` under `srvStep`. -/
inductive SrvReach (cap : Nat) : SrvState → Prop
  | init : SrvReach cap srvInit
  | step {s s' : SrvState} {e : SrvEv} :
      SrvReach cap s → srvStep cap s e = some s' → SrvReach cap s'

/-- Timestamps enqueued but whose packet has not yet been fed to the
decoder: one while the worker is between the enqueue and the
`decode_packet` call, zero elsewhere. -/
def pendingTs (p : Phase) : Nat :=
  match p with
  | .readSz => 1
  | .readPl _ => 1
  | .decodePkt _ => 1
  | _ => 0

/-- Inductive invariant of the worker loop: dequeues track emitted
frames, the decoder never emits more than it was fed, enqueues track
fully received non-sentinel timestamps, the queue holds the
not-yet-dequeued timestamps, enqueues equal fed packets plus the one in
flight (up to the error-break slack), and a clean `ENODATA` exit happens
only with the decoder drained and no timestamp in flight. -/
def srvInv (s : SrvState) : Prop :=
  s.dequeued = s.emitted ∧
  s.emitted ≤ s.fed ∧
  s.enqueued = s.tsRecvd ∧
  s.tsq.length = s.enqueued - s.dequeued ∧
  (match s.phase with
   | .done _ => s.fed ≤ s.enqueued ∧ s.enqueued ≤ s.fed + 1
   | p => s.enqueued = s.fed + pendingTs p) ∧
  (s.phase = .done true → s.enqueued = s.fed ∧ s.emitted = s.fed)

/-! ### Theorems -/

/-- C1: `queue_request` throws `BufferNotReady` iff the value read from
`queue_counter` exceeds `dma_frame_buffers - 2`; with the count equal to
`N − 2` the backpressure check passes and the request is submitted, and
with the count equal to `N − 1` the call fails with `BufferNotReady`
before any submission and with no state change. -/
theorem c1_queue_request_backpressure (s : CamState) (vendorOk : Bool) :
    ((queue_request s vendorOk).2.1 = some CamErr.bufferNotReady ↔
      (s.semCount : Int) > s.dmaFrameBuffers - 2) ∧
    ((s.semCount : Int) = s.dmaFrameBuffers - 2 →
      (queue_request s vendorOk).2.1 ≠ some CamErr.bufferNotReady ∧
      (queue_request s vendorOk).2.2 = [CamEv.submit s.nextReqIdx]) ∧
    ((s.semCount : Int) = s.dmaFrameBuffers - 1 →
      queue_request s vendorOk = (s, some CamErr.bufferNotReady, [])) := by
  unfold queue_request
  split_ifs with h1 h2 <;> simp_all <;> omega

/-- Closed instance of `c1_queue_request_backpressure` at
`semCount = 3 = N − 1` with `N = 4`. -/
theorem c1_queue_request_backpressure_witness :
    queue_request ⟨3, 0, 4, 4⟩ true = (⟨3, 0, 4, 4⟩, some CamErr.bufferNotReady, []) :=
  (c1_queue_request_backpressure ⟨3, 0, 4, 4⟩ true).2.2 (by decide)

/-- C4: on a successful submission `queue_request` submits
`requests[next_req_idx]` and advances the cursor by one modulo the ring
size; on every failing call the handler state — in particular
`next_req_idx` — is unchanged. -/
theorem c4_queue_request_cursor (s : CamState) (vendorOk : Bool) :
    ((queue_request s vendorOk).2.1 = none →
      (queue_request s vendorOk).1 =
        { s with nextReqIdx := (s.nextReqIdx + 1) % s.ringSize } ∧
      (queue_request s vendorOk).2.2 = [CamEv.submit s.nextReqIdx]) ∧
    (∀ e, (queue_request s vendorOk).2.1 = some e →
      (queue_request s vendorOk).1 = s) := by
  unfold queue_request
  split_ifs <;> simp

/-- Closed instance of `c4_queue_request_cursor` on a successful call. -/
theorem c4_queue_request_cursor_witness :
    (queue_request ⟨0, 1, 4, 4⟩ true).1 = ⟨0, 2, 4, 4⟩ ∧
    (queue_request ⟨0, 1, 4, 4⟩ true).2.2 = [CamEv.submit 1] :=
  (c4_queue_request_cursor ⟨0, 1, 4, 4⟩ true).1 rfl

/-- C3: a cancelled request makes `request_complete` return immediately
with no change to the queue, the semaphore or the request; otherwise it
looks up `mmap_buffers_[cookie]`, enqueues that pointer, posts
`queue_counter` and reuses the request, in exactly that order. -/
theorem c3_request_complete_order (s : CbState) (stat : RStat) (cookie : Nat) :
    (stat = RStat.cancelled → request_complete s stat cookie = (s, [])) ∧
    (stat ≠ RStat.cancelled →
      request_complete s stat cookie =
        ({ s with frameQueue := s.frameQueue ++ [s.mmapBuffers.getD cookie 0],
                  semCount := s.semCount + 1 },
         [.lookup cookie, .enq (s.mmapBuffers.getD cookie 0), .semPost, .reuse])) := by
  unfold request_complete
  split_ifs <;> simp_all

/-- Closed instance of `c3_request_complete_order` on a completed request. -/
theorem c3_request_complete_order_witness :
    request_complete ⟨[], 0, [7, 8]⟩ RStat.complete 1 =
      (⟨[8], 1, [7, 8]⟩, [CbEv.lookup 1, CbEv.enq 8, CbEv.semPost, CbEv.reuse]) :=
  (c3_request_complete_order ⟨[], 0, [7, 8]⟩ RStat.complete 1).2 (by decide)

/-- C9 counterexample: at `W = 2`, `H = 1` the source computes
`frame_bytes = 2*1 + 2*(2*1/4) = 2`, while `W*H*3/2 = 3`; the two
formulas disagree whenever `W*H` is not a multiple of 4. -/
theorem c9_frame_bytes_counterexample :
    ¬ init_frame_config 2 1 = yuv420_frame_bytes 2 1 := by
  decide

/-- C9 amended: whenever `W*H` is divisible by 4 (as for any
even-dimensioned YUV420 frame) and the result fits an `unsigned int`,
the frame size computed at initialization equals `W*H*3/2`. -/
theorem c9_frame_bytes_eq (w h : Nat) (hdvd : 4 ∣ w * h)
    (hlt : w * h * 3 / 2 < UINT_MOD) :
    init_frame_config w h = yuv420_frame_bytes w h := by
  obtain ⟨k, hk⟩ := hdvd
  simp only [init_frame_config, yuv420_frame_bytes, UINT_MOD] at *
  rw [hk] at hlt ⊢
  have h2 : 4 * k < 2 ^ 32 := by omega
  rw [Nat.mod_eq_of_lt h2]
  omega

/-- Closed instance of `c9_frame_bytes_eq` at `W = 4`, `H = 2`. -/
theorem c9_frame_bytes_eq_witness :
    init_frame_config 4 2 = yuv420_frame_bytes 4 2 :=
  c9_frame_bytes_eq 4 2 (by decide) (by decide)

/-- C10: the watchdog handler closes the socket only on `SIGUSR2` with
`sockfd ≥ 0`; a delivery with `sockfd = -1` changes nothing; and a
second delivery right after a first one leaves `sockfd` where the first
left it and closes nothing, so two deliveries act as one. -/
theorem c10_socket_disconnect_idempotent (signo : Nat) (fd : Int) :
    socket_disconnect_handler signo (socket_disconnect_handler signo fd).1 =
      ((socket_disconnect_handler signo fd).1, 0) ∧
    (fd = -1 → socket_disconnect_handler signo fd = (fd, 0)) ∧
    ((socket_disconnect_handler signo fd).2 ≠ 0 → signo = SIGUSR2 ∧ fd ≥ 0) := by
  unfold socket_disconnect_handler
  split_ifs <;> simp_all
  omega

/-- Closed instance of `c10_socket_disconnect_idempotent`: a delivery
with the socket already closed changes nothing. -/
theorem c10_socket_disconnect_idempotent_witness :
    socket_disconnect_handler SIGUSR2 (-1) = (-1, 0) :=
  (c10_socket_disconnect_idempotent SIGUSR2 (-1)).2.1 rfl

/-- C8 counterexample: on `SIGTERM` with `running` set and an open
socket the shutdown handler performs zero `sem_post` calls on
`queue_counter` — it calls `sem_destroy` instead — refuting the claim
that it posts the semaphore exactly once. -/
theorem c8_shutdown_no_post_counterexample :
    ¬ (capture_signal_handler SIGTERM ⟨true, 3, false⟩).2.count SigEv.semPost = 1 := by
  decide

/-- C8 amended: on `SIGINT`/`SIGTERM` the handler clears `running`,
closes the socket when it is open, and then destroys `queue_counter`; it
performs no `sem_post` at all (the consumer is woken by `sem_wait`
failing on the destroyed semaphore, not by a post). -/
theorem c8_shutdown_destroys_semaphore (signo : Nat) (s : MainState)
    (hsig : signo = SIGINT ∨ signo = SIGTERM) :
    (capture_signal_handler signo s).1.running = false ∧
    (capture_signal_handler signo s).1.semDestroyed = true ∧
    (s.sockfd ≥ 0 →
      capture_signal_handler signo s =
        (⟨false, -1, true⟩, [.clearRunning, .closeFd s.sockfd, .semDestroy])) ∧
    (¬ s.sockfd ≥ 0 →
      capture_signal_handler signo s =
        ({ s with running := false, semDestroyed := true },
         [.clearRunning, .semDestroy])) ∧
    SigEv.semPost ∉ (capture_signal_handler signo s).2 := by
  have h1 : ¬ (signo = SIGUSR1 ∧ s.running) := by
    rcases hsig with h | h <;> simp [h, SIGINT, SIGTERM, SIGUSR1]
  unfold capture_signal_handler
  rw [if_neg h1, if_pos hsig]
  split_ifs with h2 <;> simp_all

/-- Closed instance of `c8_shutdown_destroys_semaphore` on `SIGTERM`
with an open socket. -/
theorem c8_shutdown_destroys_semaphore_witness :
    capture_signal_handler SIGTERM ⟨true, 3, false⟩ =
      (⟨false, -1, true⟩, [SigEv.clearRunning, SigEv.closeFd 3, SigEv.semDestroy]) :=
  (c8_shutdown_destroys_semaphore SIGTERM ⟨true, 3, false⟩ (Or.inr rfl)).2.2.1 (by decide)

/-- Helper for C5: the write loop, started with `written ≤ size` bytes
already out, returns `0` exactly when the running total reached `size`,
returns `-1` (with the total still short) on a non-`EINTR` failure, and
issues only contiguous writes starting at the first unwritten byte. -/
theorem stream_pktLoop_spec (size : Nat) (oracle : List WRes) :
    ∀ written, written ≤ size →
      ∀ r tot calls, stream_pktLoop size written oracle = some (r, tot, calls) →
        (r = 0 → tot = size) ∧
        (r ≠ 0 → r < 0 ∧ tot < size) ∧
        Contig size written calls := by
  induction oracle with
  | nil =>
    intro written hw r tot calls h
    rw [stream_pktLoop] at h
    split_ifs at h with hlt
    simp only [Option.some.injEq, Prod.mk.injEq] at h
    obtain ⟨h1, h2, h3⟩ := h
    subst h1; subst h2; subst h3
    exact ⟨fun _ => by omega, fun hr => absurd rfl hr, Contig.nil written⟩
  | cons w rest ih =>
    intro written hw r tot calls h
    cases w with
    | ok n =>
      rw [stream_pktLoop] at h
      split_ifs at h with hlt
      · rw [Option.map_eq_some'] at h
        obtain ⟨⟨r', tot', calls'⟩, ha, hb⟩ := h
        simp only [Prod.mk.injEq] at hb
        obtain ⟨hb1, hb2, hb3⟩ := hb
        subst hb1; subst hb2; subst hb3
        obtain ⟨g1, g2, g3⟩ :=
          ih (written + min n (size - written)) (by omega) r' tot' calls' ha
        exact ⟨g1, g2, Contig.cons written (min n (size - written)) calls' g3⟩
      · simp only [Option.some.injEq, Prod.mk.injEq] at h
        obtain ⟨h1, h2, h3⟩ := h
        subst h1; subst h2; subst h3
        exact ⟨fun _ => by omega, fun hr => absurd rfl hr, Contig.nil written⟩
    | eintr =>
      rw [stream_pktLoop] at h
      split_ifs at h with hlt
      · rw [Option.map_eq_some'] at h
        obtain ⟨⟨r', tot', calls'⟩, ha, hb⟩ := h
        simp only [Prod.mk.injEq] at hb
        obtain ⟨hb1, hb2, hb3⟩ := hb
        subst hb1; subst hb2; subst hb3
        obtain ⟨g1, g2, g3⟩ := ih written hw r' tot' calls' ha
        have g3' : Contig size (written + 0) calls' := by rwa [Nat.add_zero]
        exact ⟨g1, g2, Contig.cons written 0 calls' g3'⟩
      · simp only [Option.some.injEq, Prod.mk.injEq] at h
        obtain ⟨h1, h2, h3⟩ := h
        subst h1; subst h2; subst h3
        exact ⟨fun _ => by omega, fun hr => absurd rfl hr, Contig.nil written⟩
    | err =>
      rw [stream_pktLoop] at h
      split_ifs at h with hlt
      · simp only [Option.some.injEq, Prod.mk.injEq] at h
        obtain ⟨h1, h2, h3⟩ := h
        subst h1; subst h2; subst h3
        refine ⟨fun hr => absurd hr (by decide), fun _ => ⟨by decide, hlt⟩, ?_⟩
        exact Contig.cons written 0 [] (Contig.nil (written + 0))
      · simp only [Option.some.injEq, Prod.mk.injEq] at h
        obtain ⟨h1, h2, h3⟩ := h
        subst h1; subst h2; subst h3
        exact ⟨fun _ => by omega, fun hr => absurd rfl hr, Contig.nil written⟩

/-- C5: `stream_pkt` returns `0` only once exactly `size` bytes are
written; every `write` it issues starts at the first unwritten byte and
requests the remaining bytes (`Contig`); a negative `sockfd` is
reconnected before any write (on reconnect failure the negative
`init_network` code is returned with nothing written, on success the
call proceeds exactly as with an open socket); an `EINTR` failure is
retried without advancing the total; and any other `write` failure makes
the call return a negative value with the packet incomplete. -/
theorem c5_stream_pkt_exact (sockfd reconnRet : Int) (size : Nat)
    (oracle : List WRes) (r : Int) (tot : Nat) (calls : List PktCall)
    (h : stream_pkt sockfd reconnRet size oracle = some (r, tot, calls)) :
    ((r = 0 → tot = size) ∧
     (r ≠ 0 → r < 0 ∧ tot < size) ∧
     Contig size 0 calls) ∧
    (0 < size → sockfd < 0 → reconnRet < 0 →
      stream_pkt sockfd reconnRet size oracle = some (reconnRet, 0, [])) ∧
    (0 < size → sockfd < 0 → ¬ reconnRet < 0 →
      stream_pkt sockfd reconnRet size oracle = stream_pktLoop size 0 oracle) ∧
    (∀ written rest, written < size →
      stream_pktLoop size written (WRes.eintr :: rest) =
        (stream_pktLoop size written rest).map
          fun a => (a.1, a.2.1, ⟨written, size - written⟩ :: a.2.2)) := by
  refine ⟨?_, ?_, ?_, ?_⟩
  · unfold stream_pkt at h
    split_ifs at h with h1 h2 h3
    · simp only [Option.some.injEq, Prod.mk.injEq] at h
      obtain ⟨g1, g2, g3⟩ := h
      subst g1; subst g2; subst g3
      exact ⟨fun hr => by omega, fun _ => ⟨h3, h1⟩, Contig.nil 0⟩
    · exact stream_pktLoop_spec size oracle 0 (Nat.zero_le _) r tot calls h
    · exact stream_pktLoop_spec size oracle 0 (Nat.zero_le _) r tot calls h
    · simp only [Option.some.injEq, Prod.mk.injEq] at h
      obtain ⟨g1, g2, g3⟩ := h
      subst g1; subst g2; subst g3
      exact ⟨fun _ => by omega, fun hr => absurd rfl hr, Contig.nil 0⟩
  · intro h1 h2 h3
    unfold stream_pkt
    rw [if_pos h1, if_pos h2, if_pos h3]
  · intro h1 h2 h3
    unfold stream_pkt
    rw [if_pos h1, if_pos h2, if_neg h3]
  · intro written rest hw
    conv_lhs => rw [stream_pktLoop]
    rw [if_pos hw]

/-- Closed instance of `c5_stream_pkt_exact`: two short writes of 2
bytes each complete a 4-byte packet, with contiguous calls. -/
theorem c5_stream_pkt_exact_witness :
    (4 : Nat) = 4 ∧ Contig 4 0 [⟨0, 4⟩, ⟨2, 2⟩] := by
  have h := c5_stream_pkt_exact 5 0 4 [WRes.ok 2, WRes.ok 2] 0 4
    [⟨0, 4⟩, ⟨2, 2⟩] (by decide)
  exact ⟨h.1.1 rfl, h.1.2.2⟩

/-- Helper for C2: `srvInv` is an inductive invariant of the worker
loop — it holds in the initial state and is preserved by every step. -/
theorem srvInv_of_reach {cap : Nat} {s : SrvState} (h : SrvReach cap s) :
    srvInv s := by
  induction h with
  | init => simp [srvInv, srvInit, pendingTs]
  | @step s s' e hr hstep ih =>
    clear hr
    obtain ⟨ph, tsq, enq, deq, tsr, fp, fed, em, fl⟩ := s
    cases e <;> cases ph <;>
      simp only [srvStep] at hstep <;>
      (try split_ifs at hstep) <;>
      first
      | exact Option.noConfusion hstep
      | (injection hstep with hstep; subst hstep;
         simp_all [srvInv, pendingTs]; try omega)

/-- C2 counterexample: the worker enqueues the timestamp before reading
the frame size, so on a connection that delivers a full timestamp and
then dies, the reachable final state has one enqueued timestamp but zero
fully received packets — refuting "exactly one timestamp is enqueued per
successfully received input packet". -/
theorem c2_enqueue_per_packet_counterexample :
    ¬ (∀ (s : SrvState), SrvReach 64 s → s.enqueued = s.fullPkts) := by
  intro hall
  have r1 : SrvReach 64
      { phase := .readSz, tsq := [7], enqueued := 1, dequeued := 0,
        tsRecvd := 1, fullPkts := 0, fed := 0, emitted := 0, flushed := false } :=
    SrvReach.step (e := SrvEv.tsOk 7) SrvReach.init (by decide)
  have r2 : SrvReach 64
      { phase := .done false, tsq := [7], enqueued := 1, dequeued := 0,
        tsRecvd := 1, fullPkts := 0, fed := 0, emitted := 0, flushed := false } :=
    SrvReach.step (e := SrvEv.szShort) r1 (by decide)
  exact absurd (hall _ r2) (by decide)

/-- C2 amended: in every reachable worker state, exactly one timestamp
has been enqueued per fully received non-sentinel timestamp field (the
enqueue precedes the size/payload reads, so a packet whose later parts
fail still has its timestamp enqueued), exactly one timestamp is
dequeued per frame the decoder emits, `dequeued ≤ enqueued` always
holds, and the two are equal when the worker terminates by draining the
decoder to `ENODATA`. -/
theorem c2_timestamp_accounting {cap : Nat} {s : SrvState}
    (h : SrvReach cap s) :
    s.enqueued = s.tsRecvd ∧
    s.dequeued = s.emitted ∧
    s.dequeued ≤ s.enqueued ∧
    (s.phase = Phase.done true → s.dequeued = s.enqueued) := by
  obtain ⟨h1, h2, h3, h4, h5, h6⟩ := srvInv_of_reach h
  have hfe : s.fed ≤ s.enqueued := by
    cases hp : s.phase <;> rw [hp] at h5 <;> simp [pendingTs] at h5 <;> omega
  exact ⟨h3, h1, by omega, fun hd => by obtain ⟨ha, hb⟩ := h6 hd; omega⟩

/-- Closed instance of `c2_timestamp_accounting` at the reachable state
after one full timestamp reception. -/
theorem c2_timestamp_accounting_witness :
    (1 : Nat) = 1 ∧ (0 : Nat) = 0 ∧ (0 : Nat) ≤ 1 ∧
    (Phase.readSz = Phase.done true → (0 : Nat) = 1) := by
  have r1 : SrvReach 64
      { phase := .readSz, tsq := [7], enqueued := 1, dequeued := 0,
        tsRecvd := 1, fullPkts := 0, fed := 0, emitted := 0, flushed := false } :=
    SrvReach.step (e := SrvEv.tsOk 7) SrvReach.init (by decide)
  exact c2_timestamp_accounting r1

/-- C6: when the 8 bytes in the timestamp slot are the `EOSTREAM`
sentinel the worker calls `flush_decoder` (`flushed := true`), enqueues
nothing, and moves to drain mode; in drain mode no socket-read event is
possible and every step leaves `enqueued`, `tsRecvd` and `fed`
unchanged, staying in drain mode or terminating; and once the decoder
reports `ENODATA` the worker terminates cleanly. -/
theorem c6_eostream_flush_drain (cap : Nat) (s : SrvState) :
    (s.phase = Phase.readTs →
      srvStep cap s .tsEos =
        some { s with phase := .recvFr false, flushed := true }) ∧
    (s.phase = Phase.recvFr false →
      (∀ t n, srvStep cap s .tsShort = none ∧ srvStep cap s .tsEos = none ∧
        srvStep cap s (.tsOk t) = none ∧ srvStep cap s .szShort = none ∧
        srvStep cap s (.szOk n) = none ∧ srvStep cap s .plShort = none ∧
        srvStep cap s .plOk = none ∧ srvStep cap s .decOk = none ∧
        srvStep cap s .decFail = none) ∧
      (∀ e s', srvStep cap s e = some s' →
        s'.enqueued = s.enqueued ∧ s'.tsRecvd = s.tsRecvd ∧ s'.fed = s.fed ∧
        (s'.phase = Phase.recvFr false ∨ s'.phase = Phase.done true ∨
         s'.phase = Phase.done false)) ∧
      (s.flushed = true → s.emitted = s.fed →
        srvStep cap s .frNodata = some { s with phase := .done true })) := by
  constructor
  · intro hp
    simp [srvStep, hp]
  · intro hp
    refine ⟨fun t n => ?_, fun e s' hstep => ?_, fun hf he => ?_⟩
    · simp [srvStep, hp]
    · unfold srvStep at hstep
      rw [hp] at hstep
      cases e <;>
        (try split_ifs at hstep) <;>
        first
        | exact Option.noConfusion hstep
        | (injection hstep with hstep; subst hstep; simp)
    · simp [srvStep, hp, hf, he]

/-- Closed instance of `c6_eostream_flush_drain`: the sentinel received
in the initial state flushes the decoder and enters drain mode. -/
theorem c6_eostream_flush_drain_witness :
    srvStep 64 srvInit SrvEv.tsEos =
      some { srvInit with phase := Phase.recvFr false, flushed := true } :=
  (c6_eostream_flush_drain 64 srvInit).1 rfl

/-- C7: a received `frame_size` strictly larger than
`ENCODED_FRAME_BUF_SIZE` (the `cap` parameter) makes the worker break
out of the loop at once — the resulting state differs only in its
(terminal) phase, so no payload is read (`fullPkts` unchanged) and
nothing is fed to the decoder (`fed` unchanged), and no further event
can step a terminated worker. -/
theorem c7_oversized_frame_terminates (cap n : Nat) (s : SrvState)
    (hp : s.phase = Phase.readSz) (hn : n > cap) :
    srvStep cap s (.szOk n) = some { s with phase := .done false } ∧
    (∀ e, srvStep cap { s with phase := Phase.done false } e = none) := by
  constructor
  · simp [srvStep, hp, hn]
  · intro e
    cases e <;> rfl

/-- Closed instance of `c7_oversized_frame_terminates` with a 65-byte
frame against a 64-byte buffer. -/
theorem c7_oversized_frame_terminates_witness :
    srvStep 64 { srvInit with phase := Phase.readSz } (SrvEv.szOk 65) =
      some { srvInit with phase := Phase.done false } :=
  (c7_oversized_frame_terminates 64 65 { srvInit with phase := Phase.readSz }
    rfl (by decide)).1

end HandMotion
